import Mathlib

/-!
Verification of the OmniSearch core: the ranking/scoring engine
(`services/ranking.py`, `services/search_service.py`), the search variants and
A/B endpoint (`services/search_variants.py`, `api/ab_search.py`), the
experiment manager (`services/ab_testing.py`, in-memory backend) and the click
tracking metrics (`services/click_tracking.py`).

Embedding conventions:
- Python float arithmetic is modelled by exact real arithmetic (`ℝ`) for the
  scoring/fusion pipeline and by `ℚ` for the CTR computation; the float
  literals 0.5, 0.2, 0.1 of the source are the corresponding decimal
  rationals.
- Python strings are Lean `String`s; `str.lower()` / `str.strip()` are
  modelled for the ASCII range (`pyLower`, `pyStrip`), which covers every
  string the claims mention.  A missing value (`None`) is `Option.none`;
  Python truthiness of strings ("" is falsy) is written out explicitly.
- `numpy` vectors are `Fin n → ℝ`; `np.linalg.norm` is the Euclidean norm.
  Dividing by a zero norm does not raise in numpy (it yields a NaN vector);
  here it is Lean's division by zero, and the theorems about that case only
  concern whether an error is raised and whether the result is unit-norm.
- Python's stable `list.sort(key, reverse=True)` is modelled by
  `List.mergeSort` with the reversed comparison, which has the same
  specification (stable, sorted descending).
- The store backends are modelled in their in-memory form (assignment dict,
  event list, and record lists standing for the MongoDB collections); the
  randomness of `random.random() < split` and the wall clock are passed in as
  explicit arguments.
-/

namespace OmniSearch

/-! ### Tokenisation and bag-of-words text similarity (`services/ranking.py`) -/

/-- ASCII model of Python `str.lower` applied to one character. -/
def lowerChar (c : Char) : Char :=
  if 'A' ≤ c ∧ c ≤ 'Z' then Char.ofNat (c.toNat + 32) else c

/-- Python `str.lower()` on the character list of a string (ASCII range). -/
def pyLower (l : List Char) : List Char := l.map lowerChar

/-- Python `str.strip()`: remove leading and trailing whitespace. -/
def pyStrip (l : List Char) : List Char :=
  ((l.dropWhile Char.isWhitespace).reverse.dropWhile Char.isWhitespace).reverse

/-- Character class of the regex `[a-z0-9]` from `_tokenize`. -/
def isTokenChar (c : Char) : Bool :=
  (('a' ≤ c) && (c ≤ 'z')) || (('0' ≤ c) && (c ≤ '9'))

/-- Maximal runs of `[a-z0-9]` characters, as produced by
`re.findall(r"[a-z0-9]+", text)`; `acc` holds the current run reversed. -/
def tokenizeChars : List Char → List Char → List (List Char)
  | [], acc => if acc.isEmpty then [] else [acc.reverse]
  | c :: cs, acc =>
    if isTokenChar c then tokenizeChars cs (c :: acc)
    else if acc.isEmpty then tokenizeChars cs []
    else acc.reverse :: tokenizeChars cs []

/-- `_tokenize(text)`: lowercase alphanumeric tokens of `text`.  The guard
`if not text: return []` of the source is subsumed: an empty string has no
runs.  A token is kept as its character list. -/
def tokenize (text : String) : List (List Char) :=
  tokenizeChars (pyLower text.data) []

/-- `_bow` builds a token-frequency dict; its value at key `k` is the number
of occurrences of `k` in the token list. -/
def bowCount (tokens : List (List Char)) (k : List Char) : ℕ :=
  tokens.count k

open Classical in
/-- `_cosine_sim(freq_a, freq_b)`: cosine similarity of the two frequency
dicts.  The dict built from token list `a` is empty iff `a` is empty, its key
set is `a.toFinset`, and the dot product iterates over the keys of the first
dict exactly as the source loop does. -/
noncomputable def cosine_sim (a b : List (List Char)) : ℝ :=
  if a.isEmpty || b.isEmpty then 0
  else
    let dot : ℝ := ∑ k ∈ a.toFinset, (bowCount a k : ℝ) * (bowCount b k : ℝ)
    let na : ℝ := Real.sqrt (∑ k ∈ a.toFinset, (bowCount a k : ℝ) ^ 2)
    let nb : ℝ := Real.sqrt (∑ k ∈ b.toFinset, (bowCount b k : ℝ) ^ 2)
    if na = 0 ∨ nb = 0 then 0 else dot / (na * nb)

/-- `text_similarity(query_text, title)`; `None` or `""` on either side gives
`0.0` (Python truthiness of `not query_text or not title`). -/
noncomputable def text_similarity (query_text title : Option String) : ℝ :=
  match query_text, title with
  | some q, some t =>
    if q = "" ∨ t = "" then 0 else cosine_sim (tokenize q) (tokenize t)
  | _, _ => 0

/-- `exact_match_boost(a, b)`: `1.0` on a case-insensitive exact match after
stripping, `0.0` if either side is missing or empty. -/
noncomputable def exact_match_boost (a b : Option String) : ℝ :=
  match a, b with
  | some x, some y =>
    if x = "" ∨ y = "" then 0
    else if pyLower (pyStrip x.data) = pyLower (pyStrip y.data) then 1 else 0
  | _, _ => 0

/-! ### Weighted final score (`compute_final_score`) -/

/-- The weight dict of `compute_final_score`. -/
structure RankWeights where
  vector : ℝ
  color : ℝ
  category : ℝ
  text : ℝ

/-- The default weights 0.5 / 0.2 / 0.2 / 0.1. -/
noncomputable def defaultRankWeights : RankWeights :=
  ⟨1 / 2, 1 / 5, 1 / 5, 1 / 10⟩

/-- `compute_final_score(vector_sim, color_match, category_match, text_sim,
weights)`.  A `None` vector similarity counts as `0.0`; the score is the
weighted sum clamped to `[0, 1]`.  A caller-supplied weight dict replaces the
defaults (the claims only exercise the default weights, passed as `none`). -/
noncomputable def compute_final_score (vector_sim : Option ℝ)
    (color_match category_match text_sim : ℝ) (weights : Option RankWeights) : ℝ :=
  let w := weights.getD defaultRankWeights
  let v := vector_sim.getD 0
  max 0 (min 1 (w.vector * v + w.color * color_match +
    w.category * category_match + w.text * text_sim))

/-! ### Re-ranking (`rerank_results`) -/

/-- The result dict handed to `rerank_results` (the keys `_result_to_dict`
expects).  Every value can be absent, as `dict.get` returns `None`. -/
structure Candidate where
  product_id : Option String
  title : Option String
  description : Option String
  color : Option String
  category : Option String
  image_path : Option String
  similarity : Option ℝ
  distance : Option ℝ

/-- The `debug_scores` breakdown attached when `add_debug_scores` is set. -/
structure DebugScores where
  vector_score : ℝ
  color_score : ℝ
  category_score : ℝ
  text_score : ℝ
  final_score : ℝ

/-- A result dict after `rerank_results` processed it: the original keys plus
the optional `final_score` and `debug_scores` keys the loop may add. -/
structure RankedResult where
  base : Candidate
  final_score : Option ℝ
  debug_scores : Option DebugScores

/-- The `compute_final_score` call of the `rerank_results` loop for one
candidate dict. -/
noncomputable def candidateScore (query_text query_color query_category : Option String)
    (weights : Option RankWeights) (c : Candidate) : ℝ :=
  compute_final_score c.similarity (exact_match_boost query_color c.color)
    (exact_match_boost query_category c.category)
    (text_similarity query_text c.title) weights

/-- One iteration of the `rerank_results` loop: score the dict and add the
requested keys. -/
noncomputable def mkRankedResult (query_text query_color query_category : Option String)
    (weights : Option RankWeights) (add_score_field add_debug_scores : Bool)
    (c : Candidate) : RankedResult :=
  let score := candidateScore query_text query_color query_category weights c
  { base := c
    final_score := if add_score_field then some score else none
    debug_scores :=
      if add_debug_scores then
        some { vector_score := c.similarity.getD 0
               color_score := exact_match_boost query_color c.color
               category_score := exact_match_boost query_category c.category
               text_score := text_similarity query_text c.title
               final_score := score }
      else none }

/-- The `scored` list of `(score, dict)` pairs built by the loop. -/
noncomputable def scoredList (query_text query_color query_category : Option String)
    (weights : Option RankWeights) (add_score_field add_debug_scores : Bool)
    (results : List Candidate) : List (ℝ × RankedResult) :=
  results.map (fun c =>
    (candidateScore query_text query_color query_category weights c,
     mkRankedResult query_text query_color query_category weights
       add_score_field add_debug_scores c))

open Classical in
/-- The comparison of `scored.sort(key=lambda x: x[0], reverse=True)`:
descending by score, left element kept first on ties. -/
noncomputable def descByScore (a b : ℝ × RankedResult) : Bool :=
  decide (b.1 ≤ a.1)

/-- `rerank_results(results, query_text, query_color, query_category, weights,
add_score_field, add_debug_scores)`: score every dict, sort stably by score
descending, return the dicts. -/
noncomputable def rerank_results (results : List Candidate)
    (query_text query_color query_category : Option String)
    (weights : Option RankWeights) (add_score_field add_debug_scores : Bool) :
    List RankedResult :=
  ((scoredList query_text query_color query_category weights add_score_field
      add_debug_scores results).mergeSort descByScore).map Prod.snd

/-! ### `ProductSearchService.search_by_text`, re-ranking branch
(`services/search_service.py`) -/

/-- A `SearchResult` object: the constructor fields of
`services/search_service.py`. -/
structure SearchResult where
  product_id : Option String
  title : Option String
  description : Option String
  color : Option String
  category : Option String
  image_path : Option String
  similarity : ℝ
  distance : ℝ
  debug_scores : Option DebugScores

/-- `SearchResult.to_dict()` restricted to the keys `rerank_results` reads
(the initial results of `search_by_vector` carry no debug scores). -/
def SearchResult.to_dict (r : SearchResult) : Candidate :=
  { product_id := r.product_id
    title := r.title
    description := r.description
    color := r.color
    category := r.category
    image_path := r.image_path
    similarity := some r.similarity
    distance := some r.distance }

/-- The tail of `search_by_text` once the initial vector search returned
`initial` and re-ranking is enabled: if no results, return `initial[:top_k]`;
otherwise re-rank the dicts (`add_score_field=True`,
`add_debug_scores=enable_debug`), truncate to `top_k` and rebuild
`SearchResult` objects with `similarity=rd.get("final_score",
rd.get("similarity", 0.0))` and `distance=rd.get("distance", 0.0)`,
preserving `debug_scores` when present. -/
noncomputable def searchByTextRerank (query_text : String) (top_k : ℕ)
    (category_filter color_filter : Option String) (enable_debug : Bool)
    (initial : List SearchResult) : List SearchResult :=
  if initial.isEmpty then initial.take top_k
  else
    ((rerank_results (initial.map SearchResult.to_dict) (some query_text)
        color_filter category_filter none true enable_debug).take top_k).map
      (fun rd =>
        { product_id := rd.base.product_id
          title := rd.base.title
          description := rd.base.description
          color := rd.base.color
          category := rd.base.category
          image_path := rd.base.image_path
          similarity := rd.final_score.getD (rd.base.similarity.getD 0)
          distance := rd.base.distance.getD 0
          debug_scores := rd.debug_scores })

/-! ### Embedding fusion (`ProductSearchService.fuse_embeddings`) -/

/-- The error kinds named by the specification for fusion failures. -/
inductive FuseError where
  | invalidInput
  | degenerateVector
deriving DecidableEq

/-- Euclidean norm, `np.linalg.norm`. -/
noncomputable def norm2 {n : ℕ} (v : Fin n → ℝ) : ℝ :=
  Real.sqrt (∑ i, v i ^ 2)

/-- `fused / np.linalg.norm(fused)`. -/
noncomputable def normalizeVec {n : ℕ} (v : Fin n → ℝ) : Fin n → ℝ :=
  fun i => v i / norm2 v

/-- The `fused` vector before normalisation: weighted sum if both inputs are
given, otherwise the lone input. -/
noncomputable def fusedRaw {n : ℕ} (image_vec text_vec : Option (Fin n → ℝ))
    (image_weight text_weight : ℝ) : Fin n → ℝ :=
  match image_vec, text_vec with
  | some iv, some tv => fun i => image_weight * iv i + text_weight * tv i
  | some iv, none => iv
  | none, some tv => tv
  | none, none => fun _ => 0

/-- `fuse_embeddings(image_vec, text_vec, image_weight, text_weight)`: raises
`ValueError` (the kind the spec calls `InvalidInput`) iff neither vector is
given; otherwise normalises the fused vector and returns it.  The source has
no zero-norm check: the division happens unconditionally. -/
noncomputable def fuse_embeddings {n : ℕ} (image_vec text_vec : Option (Fin n → ℝ))
    (image_weight text_weight : ℝ) : Except FuseError (Fin n → ℝ) :=
  match image_vec, text_vec with
  | none, none => .error .invalidInput
  | iv, tv => .ok (normalizeVec (fusedRaw iv tv image_weight text_weight))

/-! ### Search variants and the A/B text endpoint
(`services/search_variants.py`, `api/ab_search.py`) -/

/-- `ExperimentVariant`. -/
inductive Variant where
  | search_v1
  | search_v2
deriving DecidableEq

/-- `SearchVariantV1.search_by_text`: run the baseline search; any exception
is re-raised as `Exception("V1 search failed: ...")`. -/
def searchVariantV1Run {α : Type} (underlying : Except String α) : Except String α :=
  match underlying with
  | .ok r => .ok r
  | .error e => .error ("V1 search failed: " ++ e)

/-- `SearchVariantV2.search_by_text`: run the enhanced (re-ranked) search; any
exception is re-raised as `Exception("V2 search failed: ...")`.  There is no
fallback to the baseline search. -/
def searchVariantV2Run {α : Type} (underlying : Except String α) : Except String α :=
  match underlying with
  | .ok r => .ok r
  | .error e => .error ("V2 search failed: " ++ e)

/-- The HTTP outcome of the endpoint: a success body or an HTTP error. -/
inductive AbTextResponse (α : Type) where
  | success (results : α)
  | httpError (status : ℕ) (detail : String)
deriving DecidableEq

/-- `search_by_text_ab`: dispatch on the assigned variant, run that variant's
search (`v1Run` / `v2Run` are the outcomes of the underlying searches), and
wrap any exception into HTTP 500 `"Search failed: ..."`.  The event logging
on the success path does not affect the response. -/
def search_by_text_ab {α : Type} (variant : Variant)
    (v1Run v2Run : Except String α) : AbTextResponse α :=
  match
    (match variant with
     | .search_v1 => searchVariantV1Run v1Run
     | .search_v2 => searchVariantV2Run v2Run) with
  | .ok r => .success r
  | .error e => .httpError 500 ("Search failed: " ++ e)

/-! ### Experiment manager, in-memory backend (`services/ab_testing.py`) -/

/-- `ExperimentAssignment`. -/
structure Assignment where
  user_id : String
  variant : Variant
  assigned_at : ℕ
  metadata : List (String × String)
deriving DecidableEq

/-- An `ExperimentEvent` as the in-memory log stores it; the fields the event
queries read. -/
structure AbEvent where
  user_id : String
  variant : Variant
  timestamp : ℕ
  event_type : String
  query : Option String
deriving DecidableEq

/-- The in-memory state of an `ExperimentManager`: the assignment dict and the
append-only event list. -/
structure AbState where
  assignments : List (String × Assignment)
  events : List AbEvent
deriving DecidableEq

/-- `get_assignment(user_id)` on the memory backend: dict lookup. -/
def get_assignment (s : AbState) (uid : String) : Option Assignment :=
  (s.assignments.find? (fun p => decide (p.1 = uid))).map (fun p => p.2)

/-- `_store_assignment` on the memory backend: dict insert-or-update. -/
def storeAssignment (s : AbState) (a : Assignment) : AbState :=
  { s with assignments :=
      if s.assignments.any (fun p => decide (p.1 = a.user_id)) then
        s.assignments.map (fun p => if p.1 = a.user_id then (p.1, a) else p)
      else s.assignments ++ [(a.user_id, a)] }

/-- `assign_variant(user_id, metadata)`: return the existing assignment if
any; otherwise create one from the externally resolved random draw and the
current clock, store it and return it. -/
def assign_variant (s : AbState) (uid : String) (draw : Variant) (now : ℕ)
    (meta : List (String × String)) : Assignment × AbState :=
  match get_assignment s uid with
  | some a => (a, s)
  | none =>
    let a : Assignment := ⟨uid, draw, now, meta⟩
    (a, storeAssignment s a)

/-- `log_event`: append to the in-memory list. -/
def log_event (s : AbState) (e : AbEvent) : AbState :=
  { s with events := s.events ++ [e] }

/-- `log_search`: `get_assignment(user_id) or assign_variant(user_id)`, then
log a `"search"` event under the assigned variant. -/
def log_search (s : AbState) (uid : String) (draw : Variant) (now : ℕ)
    (query : String) : AbState :=
  let r := assign_variant s uid draw now []
  log_event r.2 ⟨uid, r.1.variant, now, "search", some query⟩

/-- `log_click`: same pattern with a `"click"` event. -/
def log_click (s : AbState) (uid : String) (draw : Variant) (now : ℕ)
    (query : Option String) : AbState :=
  let r := assign_variant s uid draw now []
  log_event r.2 ⟨uid, r.1.variant, now, "click", query⟩

/-- The non-administrative operations of the manager (reads do not change the
state and `reset()` is the administrative clear the claims exclude).  Each
operation carries the externally resolved draw and clock value. -/
inductive AbOp where
  | assign (uid : String) (draw : Variant) (now : ℕ) (meta : List (String × String))
  | logSearch (uid : String) (draw : Variant) (now : ℕ) (query : String)
  | logClick (uid : String) (draw : Variant) (now : ℕ) (query : Option String)

/-- State transition of one operation. -/
def stepOp (s : AbState) : AbOp → AbState
  | .assign uid draw now meta => (assign_variant s uid draw now meta).2
  | .logSearch uid draw now query => log_search s uid draw now query
  | .logClick uid draw now query => log_click s uid draw now query

/-- Run a sequence of operations. -/
def runOps (s : AbState) (ops : List AbOp) : AbState :=
  ops.foldl stepOp s

/-- The three successive filters of `get_events` (Python truthiness of the
optional arguments written as `Option`). -/
def matchingEvents (events : List AbEvent) (user_id : Option String)
    (variant : Option Variant) (event_type : Option String) : List AbEvent :=
  let e1 := match user_id with
    | none => events
    | some u => events.filter (fun e => decide (e.user_id = u))
  let e2 := match variant with
    | none => e1
    | some v => e1.filter (fun e => decide (e.variant = v))
  match event_type with
  | none => e2
  | some t => e2.filter (fun e => decide (e.event_type = t))

/-- `get_events(user_id, variant, event_type, limit)`: filter, then return
`events[-limit:]`.  The Python slice keeps the last `limit` elements in their
stored (chronological) order; for `limit = 0` the slice `[-0:]` is the whole
list. -/
def get_events (events : List AbEvent) (user_id : Option String)
    (variant : Option Variant) (event_type : Option String) (limit : ℕ) :
    List AbEvent :=
  let m := matchingEvents events user_id variant event_type
  if limit = 0 then m else m.drop (m.length - limit)

/-! ### Click tracking CTR (`services/click_tracking.py`) -/

/-- A stored click document, the fields `get_ctr` filters on. -/
structure ClickRec where
  user_id : String
  variant : String
  timestamp : ℤ
deriving DecidableEq

/-- A stored impression document. -/
structure ImpressionRec where
  user_id : String
  variant : String
  timestamp : ℤ
deriving DecidableEq

/-- The Mongo filter of `get_ctr`: timestamp at or after the cutoff
(`{'$gte': cutoff_time}`), plus the optional `user_id` and `variant`
equalities. -/
def ctrMatches (uid variant : Option String) (cutoff : ℤ)
    (r_user r_variant : String) (ts : ℤ) : Bool :=
  decide (cutoff ≤ ts) &&
    (match uid with | none => true | some u => decide (r_user = u)) &&
    (match variant with | none => true | some v => decide (r_variant = v))

/-- `count_documents` over the clicks collection. -/
def countClicks (clicks : List ClickRec) (uid variant : Option String)
    (cutoff : ℤ) : ℕ :=
  (clicks.filter (fun r => ctrMatches uid variant cutoff r.user_id r.variant r.timestamp)).length

/-- `count_documents` over the impressions collection. -/
def countImpressions (impressions : List ImpressionRec) (uid variant : Option String)
    (cutoff : ℤ) : ℕ :=
  (impressions.filter (fun r => ctrMatches uid variant cutoff r.user_id r.variant r.timestamp)).length

/-- Python `round(x, 4)` on the exact ratio: round to the nearest multiple of
1/10000 (Python's float round breaks exact .00005 ties to even; no claim here
depends on such a tie). -/
def round4 (x : ℚ) : ℚ :=
  ((round (x * 10000) : ℤ) : ℚ) / 10000

/-- The `"ctr"` value computed by `get_ctr`:
`round(clicks / impressions, 4)` if any impression matches, else `0.0`. -/
def get_ctr (clicks : List ClickRec) (impressions : List ImpressionRec)
    (uid variant : Option String) (cutoff : ℤ) : ℚ :=
  let c := countClicks clicks uid variant cutoff
  let i := countImpressions impressions uid variant cutoff
  if 0 < i then round4 ((c : ℚ) / (i : ℚ)) else 0

/-- The `SearchResult` rebuilt from a re-ranked dict when no debug output was
requested: all dict keys are copied and `similarity` receives the final
score. -/
noncomputable def resultFromCandidate (c : Candidate) (score : ℝ) : SearchResult :=
  { product_id := c.product_id
    title := c.title
    description := c.description
    color := c.color
    category := c.category
    image_path := c.image_path
    similarity := score
    distance := c.distance.getD 0
    debug_scores := none }





/-- Claim C4 (confirmed): with the default weights, `compute_final_score` is
the weighted sum `0.5*vector + 0.2*color + 0.2*category + 0.1*text` clamped to
`[0, 1]`; it maps `(1,1,1,1)` to `1.0` and `(0,0,0,0)` to `0.0`, and it is
monotonically non-decreasing in each of the four components. -/
theorem C4_compute_final_score (v c cat t v2 c2 cat2 t2 : ℝ) :
    compute_final_score (some v) c cat t none
        = max 0 (min 1 (1 / 2 * v + 1 / 5 * c + 1 / 5 * cat + 1 / 10 * t))
    ∧ compute_final_score (some 1) 1 1 1 none = 1
    ∧ compute_final_score (some 0) 0 0 0 none = 0
    ∧ (v ≤ v2 →
        compute_final_score (some v) c cat t none ≤ compute_final_score (some v2) c cat t none)
    ∧ (c ≤ c2 →
        compute_final_score (some v) c cat t none ≤ compute_final_score (some v) c2 cat t none)
    ∧ (cat ≤ cat2 →
        compute_final_score (some v) c cat t none ≤ compute_final_score (some v) c cat2 t none)
    ∧ (t ≤ t2 →
        compute_final_score (some v) c cat t none ≤ compute_final_score (some v) c cat t2 none) := by
  unfold compute_final_score defaultRankWeights
  refine ⟨rfl, by norm_num, by norm_num, ?_, ?_, ?_, ?_⟩ <;>
    · intro h
      simp only [Option.getD_some, Option.getD_none]
      gcongr

/-- Witness for C4 at concrete inputs: the four monotonicity hypotheses are
discharged at `0 ≤ 1`. -/
theorem C4_witness :
    ((0:ℝ) ≤ 1)
    ∧ compute_final_score (some (0:ℝ)) 0 0 0 none ≤ compute_final_score (some 1) 0 0 0 none
    ∧ compute_final_score (some (0:ℝ)) 0 0 0 none ≤ compute_final_score (some 0) 1 0 0 none
    ∧ compute_final_score (some (0:ℝ)) 0 0 0 none ≤ compute_final_score (some 0) 0 1 0 none
    ∧ compute_final_score (some (0:ℝ)) 0 0 0 none ≤ compute_final_score (some 0) 0 0 1 none :=
  ⟨zero_le_one,
   (C4_compute_final_score 0 0 0 0 1 1 1 1).2.2.2.1 zero_le_one,
   (C4_compute_final_score 0 0 0 0 1 1 1 1).2.2.2.2.1 zero_le_one,
   (C4_compute_final_score 0 0 0 0 1 1 1 1).2.2.2.2.2.1 zero_le_one,
   (C4_compute_final_score 0 0 0 0 1 1 1 1).2.2.2.2.2.2 zero_le_one⟩

/-- Claim C1 (corrected): when the assigned variant is V2 and the enhanced
search fails, the endpoint does NOT degrade to the baseline strategy; the
request fails as a whole with HTTP 500 wrapping
`"V2 search failed: ..."`.  On success the V2 result is returned as is. -/
theorem C1_degrade (v1Run : Except String (List String)) (e : String) :
    search_by_text_ab .search_v2 v1Run (.error e)
      = .httpError 500 ("Search failed: " ++ ("V2 search failed: " ++ e))
    ∧ ∀ r : List String, search_by_text_ab .search_v2 v1Run (.ok r) = .success r :=
  ⟨rfl, fun _ => rfl⟩

/-- Counterexample to C1 as stated: with a failing enhanced search and a
baseline search that would have succeeded, the request returns HTTP 500 and
not the baseline result. -/
theorem C1_counterexample :
    search_by_text_ab .search_v2 (.ok ["baseline ranked result"])
        (.error "malformed query text")
      = .httpError 500 "Search failed: V2 search failed: malformed query text"
    ∧ search_by_text_ab .search_v2 (.ok ["baseline ranked result"])
        (.error "malformed query text")
      ≠ .success ["baseline ranked result"] := by
  constructor
  · rfl
  · decide

lemma norm2_normalizeVec {n : ℕ} (v : Fin n → ℝ) (h : norm2 v ≠ 0) :
    norm2 (normalizeVec v) = 1 := by
  have hs : (0:ℝ) ≤ ∑ i, v i ^ 2 := Finset.sum_nonneg (fun i _ => sq_nonneg _)
  have hsq : norm2 v ^ 2 = ∑ i, v i ^ 2 := Real.sq_sqrt hs
  have key : ∑ i, (v i / norm2 v) ^ 2 = 1 := by
    have h1 : ∀ i : Fin n, (v i / norm2 v) ^ 2 = v i ^ 2 / norm2 v ^ 2 :=
      fun i => div_pow _ _ _
    rw [Finset.sum_congr rfl (fun i _ => h1 i), ← Finset.sum_div, ← hsq]
    exact div_self (pow_ne_zero 2 h)
  simp only [normalizeVec, norm2] at key ⊢
  rw [key, Real.sqrt_one]

/-- Claim C2 (corrected): `fuse_embeddings` fails with `InvalidInput`
(`ValueError`) exactly when neither vector is supplied; it never fails with
`DegenerateVector`; and whenever the weighted sum (or lone input) has nonzero
norm, the returned vector has norm 1. -/
theorem C2_fuse (n : ℕ) (iv tv : Option (Fin n → ℝ)) (w1 w2 : ℝ) :
    (fuse_embeddings iv tv w1 w2 = .error .invalidInput ↔ iv = none ∧ tv = none)
    ∧ fuse_embeddings iv tv w1 w2 ≠ .error .degenerateVector
    ∧ (norm2 (fusedRaw iv tv w1 w2) ≠ 0 →
        fuse_embeddings iv tv w1 w2 = .ok (normalizeVec (fusedRaw iv tv w1 w2))
        ∧ ∀ u, fuse_embeddings iv tv w1 w2 = .ok u → norm2 u = 1) := by
  match iv, tv with
  | none, none =>
    refine ⟨by simp [fuse_embeddings], by simp [fuse_embeddings], ?_⟩
    intro h
    exfalso
    apply h
    simp [fusedRaw, norm2]
  | some i0, none =>
    refine ⟨by simp [fuse_embeddings], by simp [fuse_embeddings], ?_⟩
    intro h
    refine ⟨rfl, ?_⟩
    intro u hu
    have : u = normalizeVec (fusedRaw (some i0) none w1 w2) := by
      simpa [fuse_embeddings, fusedRaw] using hu.symm
    rw [this]
    exact norm2_normalizeVec _ h
  | none, some t0 =>
    refine ⟨by simp [fuse_embeddings], by simp [fuse_embeddings], ?_⟩
    intro h
    refine ⟨rfl, ?_⟩
    intro u hu
    have : u = normalizeVec (fusedRaw none (some t0) w1 w2) := by
      simpa [fuse_embeddings, fusedRaw] using hu.symm
    rw [this]
    exact norm2_normalizeVec _ h
  | some i0, some t0 =>
    refine ⟨by simp [fuse_embeddings], by simp [fuse_embeddings], ?_⟩
    intro h
    refine ⟨rfl, ?_⟩
    intro u hu
    have : u = normalizeVec (fusedRaw (some i0) (some t0) w1 w2) := by
      simpa [fuse_embeddings, fusedRaw] using hu.symm
    rw [this]
    exact norm2_normalizeVec _ h

/-- Witness for C2: a one-dimensional unit input has nonzero norm and the
fused output has norm 1. -/
theorem C2_witness :
    norm2 (fusedRaw (some (fun _ : Fin 1 => (1:ℝ))) none (3/5) (2/5)) ≠ 0
    ∧ (fuse_embeddings (some (fun _ : Fin 1 => (1:ℝ))) none (3/5) (2/5)
        = .ok (normalizeVec (fusedRaw (some (fun _ : Fin 1 => (1:ℝ))) none (3/5) (2/5)))
      ∧ ∀ u, fuse_embeddings (some (fun _ : Fin 1 => (1:ℝ))) none (3/5) (2/5) = .ok u →
          norm2 u = 1) := by
  have hne : norm2 (fusedRaw (some (fun _ : Fin 1 => (1:ℝ))) none (3/5) (2/5)) ≠ 0 := by
    simp [fusedRaw, norm2]
  exact ⟨hne, (C2_fuse 1 (some (fun _ => 1)) none (3/5) (2/5)).2.2 hne⟩

/-- Counterexample to C2 as stated: a zero-norm input does not produce a
`DegenerateVector` error; the call succeeds and returns a vector that is not
unit-norm (in numpy, a NaN vector). -/
theorem C2_counterexample :
    norm2 (fun _ : Fin 1 => (0:ℝ)) = 0
    ∧ fuse_embeddings (some (fun _ : Fin 1 => (0:ℝ))) none (3/5) (2/5)
        = .ok (normalizeVec (fun _ : Fin 1 => (0:ℝ)))
    ∧ norm2 (normalizeVec (fun _ : Fin 1 => (0:ℝ))) ≠ 1 := by
  refine ⟨by simp [norm2], rfl, ?_⟩
  simp [normalizeVec, norm2]

/-- Claim C9 (corrected): `get_ctr` returns exactly `0.0` (never an error or
NaN) when no impression matches, and otherwise returns `clicks / impressions`
rounded to 4 decimal places; the quotient is returned exactly whenever it has
at most 4 decimal places. -/
theorem C9_get_ctr (clicks : List ClickRec) (impressions : List ImpressionRec)
    (uid variant : Option String) (cutoff : ℤ) :
    (countImpressions impressions uid variant cutoff = 0 →
      get_ctr clicks impressions uid variant cutoff = 0)
    ∧ (0 < countImpressions impressions uid variant cutoff →
      get_ctr clicks impressions uid variant cutoff
        = round4 ((countClicks clicks uid variant cutoff : ℚ)
            / (countImpressions impressions uid variant cutoff : ℚ)))
    ∧ (0 < countImpressions impressions uid variant cutoff →
       (10000 * countClicks clicks uid variant cutoff)
           % countImpressions impressions uid variant cutoff = 0 →
      get_ctr clicks impressions uid variant cutoff
        = (countClicks clicks uid variant cutoff : ℚ)
            / (countImpressions impressions uid variant cutoff : ℚ)) := by
  set c := countClicks clicks uid variant cutoff with hc
  set i := countImpressions impressions uid variant cutoff with hi
  refine ⟨?_, ?_, ?_⟩
  · intro h
    simp [get_ctr, ← hc, ← hi, h]
  · intro h
    simp [get_ctr, ← hc, ← hi, h]
  · intro h hmod
    have hdvd : i ∣ 10000 * c := Nat.dvd_of_mod_eq_zero hmod
    obtain ⟨k, hk⟩ := hdvd
    have hi0 : (i:ℚ) ≠ 0 := Nat.cast_ne_zero.mpr h.ne'
    have hcast : (10000 : ℚ) * (c:ℚ) = (i:ℚ) * (k:ℚ) := by exact_mod_cast hk
    have h1 : (c:ℚ) / (i:ℚ) * 10000 = (k:ℚ) := by
      field_simp
      linarith
    have h2 : get_ctr clicks impressions uid variant cutoff = round4 ((c:ℚ)/(i:ℚ)) := by
      simp [get_ctr, ← hc, ← hi, h]
    rw [h2, round4, h1]
    rw [round_natCast]
    field_simp
    linarith

/-- Counterexample to C9 as stated: with 1 matching click and 3 matching
impressions the returned CTR is `0.3333`, not `1/3`. -/
theorem C9_counterexample :
    get_ctr [⟨"u1", "search_v1", 5⟩]
        [⟨"u1", "search_v1", 5⟩, ⟨"u2", "search_v1", 6⟩, ⟨"u3", "search_v1", 7⟩]
        none none 0
      = 3333 / 10000
    ∧ get_ctr [⟨"u1", "search_v1", 5⟩]
        [⟨"u1", "search_v1", 5⟩, ⟨"u2", "search_v1", 6⟩, ⟨"u3", "search_v1", 7⟩]
        none none 0
      ≠ (countClicks [⟨"u1", "search_v1", 5⟩] none none 0 : ℚ)
          / (countImpressions [⟨"u1", "search_v1", 5⟩, ⟨"u2", "search_v1", 6⟩,
              ⟨"u3", "search_v1", 7⟩] none none 0 : ℚ) := by
  have hc : countClicks [⟨"u1", "search_v1", 5⟩] none none 0 = 1 := by decide
  have hi : countImpressions [⟨"u1", "search_v1", 5⟩, ⟨"u2", "search_v1", 6⟩,
      ⟨"u3", "search_v1", 7⟩] none none 0 = 3 := by decide
  have hv : get_ctr [⟨"u1", "search_v1", 5⟩]
      [⟨"u1", "search_v1", 5⟩, ⟨"u2", "search_v1", 6⟩, ⟨"u3", "search_v1", 7⟩]
      none none 0 = round4 ((1 : ℚ) / 3) := by
    simp [get_ctr, hc, hi]
  have hr : round4 ((1 : ℚ) / 3) = 3333 / 10000 := by
    rw [round4, round_eq]
    norm_num
  refine ⟨by rw [hv, hr], ?_⟩
  rw [hv, hr, hc, hi]
  norm_num



lemma bowCount_eq_zero (a : List (List Char)) (k : List Char) (h : k ∉ a) :
    bowCount a k = 0 := by
  simp [bowCount, List.count_eq_zero_of_not_mem h]

lemma bow_dot_comm (a b : List (List Char)) :
    ∑ k ∈ a.toFinset, (bowCount a k : ℝ) * (bowCount b k : ℝ)
      = ∑ k ∈ b.toFinset, (bowCount b k : ℝ) * (bowCount a k : ℝ) := by
  have h1 : ∑ k ∈ a.toFinset, (bowCount a k : ℝ) * (bowCount b k : ℝ)
      = ∑ k ∈ a.toFinset ∩ b.toFinset, (bowCount a k : ℝ) * (bowCount b k : ℝ) := by
    refine (Finset.sum_subset Finset.inter_subset_left ?_).symm
    intro x hx hnx
    have hxb : x ∉ b := by
      intro hb
      exact hnx (Finset.mem_inter.mpr ⟨hx, List.mem_toFinset.mpr hb⟩)
    simp [bowCount_eq_zero b x hxb]
  have h2 : ∑ k ∈ b.toFinset, (bowCount b k : ℝ) * (bowCount a k : ℝ)
      = ∑ k ∈ b.toFinset ∩ a.toFinset, (bowCount b k : ℝ) * (bowCount a k : ℝ) := by
    refine (Finset.sum_subset Finset.inter_subset_left ?_).symm
    intro x hx hnx
    have hxa : x ∉ a := by
      intro hb
      exact hnx (Finset.mem_inter.mpr ⟨hx, List.mem_toFinset.mpr hb⟩)
    simp [bowCount_eq_zero a x hxa]
  rw [h1, h2, Finset.inter_comm]
  exact Finset.sum_congr rfl (fun x _ => mul_comm _ _)

lemma cosine_sim_comm (a b : List (List Char)) : cosine_sim a b = cosine_sim b a := by
  unfold cosine_sim
  by_cases ha : a.isEmpty <;> by_cases hb : b.isEmpty <;> simp [ha, hb]
  rw [bow_dot_comm a b,
    mul_comm (Real.sqrt (∑ k ∈ a.toFinset, (bowCount a k : ℝ) ^ 2))
      (Real.sqrt (∑ k ∈ b.toFinset, (bowCount b k : ℝ) ^ 2))]
  exact if_congr or_comm rfl rfl

lemma cosine_sim_self (a : List (List Char)) (h : a ≠ []) : cosine_sim a a = 1 := by
  have hS : (0:ℝ) < ∑ k ∈ a.toFinset, (bowCount a k : ℝ) ^ 2 := by
    refine Finset.sum_pos' (fun i _ => sq_nonneg _) ?_
    obtain ⟨x, hx⟩ : ∃ x, x ∈ a := List.exists_mem_of_ne_nil a h
    refine ⟨x, List.mem_toFinset.mpr hx, ?_⟩
    have hne : bowCount a x ≠ 0 := by
      simp only [bowCount, ne_eq, List.count_eq_zero]
      intro hc
      exact hc hx
    have hc : (0:ℝ) < (bowCount a x : ℝ) := by exact_mod_cast Nat.pos_of_ne_zero hne
    exact pow_pos hc 2
  have hna : Real.sqrt (∑ k ∈ a.toFinset, (bowCount a k : ℝ) ^ 2) ≠ 0 :=
    (Real.sqrt_pos.mpr hS).ne'
  have hae : a.isEmpty = false := by
    cases a with
    | nil => exact absurd rfl h
    | cons x xs => rfl
  unfold cosine_sim
  rw [if_neg (by simp [hae]), if_neg (by simp [hna])]
  have hdot : ∑ k ∈ a.toFinset, (bowCount a k : ℝ) * (bowCount a k : ℝ)
      = ∑ k ∈ a.toFinset, (bowCount a k : ℝ) ^ 2 :=
    Finset.sum_congr rfl (fun x _ => (sq (bowCount a x : ℝ)).symm)
  rw [hdot, Real.mul_self_sqrt hS.le, div_self hS.ne']


/-- Witness for C9 at concrete stores: an empty impression set gives CTR 0,
and the spec example (10 matching impressions, 3 matching clicks) gives CTR
exactly `3/10`. -/
theorem C9_witness :
    (countImpressions [] none (some "search_v1") 0 = 0
      ∧ get_ctr [] [] none (some "search_v1") 0 = 0)
    ∧ (0 < countImpressions [⟨"u1", "search_v1", 1⟩, ⟨"u2", "search_v1", 2⟩,
        ⟨"u3", "search_v1", 3⟩, ⟨"u4", "search_v1", 4⟩, ⟨"u5", "search_v1", 5⟩,
        ⟨"u6", "search_v1", 6⟩, ⟨"u7", "search_v1", 7⟩, ⟨"u8", "search_v1", 8⟩,
        ⟨"u9", "search_v1", 9⟩, ⟨"u10", "search_v1", 10⟩] none (some "search_v1") 0
      ∧ (10000 * countClicks [⟨"u1", "search_v1", 1⟩, ⟨"u2", "search_v1", 2⟩,
          ⟨"u3", "search_v1", 3⟩] none (some "search_v1") 0)
          % countImpressions [⟨"u1", "search_v1", 1⟩, ⟨"u2", "search_v1", 2⟩,
            ⟨"u3", "search_v1", 3⟩, ⟨"u4", "search_v1", 4⟩, ⟨"u5", "search_v1", 5⟩,
            ⟨"u6", "search_v1", 6⟩, ⟨"u7", "search_v1", 7⟩, ⟨"u8", "search_v1", 8⟩,
            ⟨"u9", "search_v1", 9⟩, ⟨"u10", "search_v1", 10⟩] none (some "search_v1") 0
          = 0
      ∧ get_ctr [⟨"u1", "search_v1", 1⟩, ⟨"u2", "search_v1", 2⟩,
          ⟨"u3", "search_v1", 3⟩]
          [⟨"u1", "search_v1", 1⟩, ⟨"u2", "search_v1", 2⟩,
            ⟨"u3", "search_v1", 3⟩, ⟨"u4", "search_v1", 4⟩, ⟨"u5", "search_v1", 5⟩,
            ⟨"u6", "search_v1", 6⟩, ⟨"u7", "search_v1", 7⟩, ⟨"u8", "search_v1", 8⟩,
            ⟨"u9", "search_v1", 9⟩, ⟨"u10", "search_v1", 10⟩] none (some "search_v1") 0
          = (countClicks [⟨"u1", "search_v1", 1⟩, ⟨"u2", "search_v1", 2⟩,
              ⟨"u3", "search_v1", 3⟩] none (some "search_v1") 0 : ℚ)
            / (countImpressions [⟨"u1", "search_v1", 1⟩, ⟨"u2", "search_v1", 2⟩,
                ⟨"u3", "search_v1", 3⟩, ⟨"u4", "search_v1", 4⟩, ⟨"u5", "search_v1", 5⟩,
                ⟨"u6", "search_v1", 6⟩, ⟨"u7", "search_v1", 7⟩, ⟨"u8", "search_v1", 8⟩,
                ⟨"u9", "search_v1", 9⟩, ⟨"u10", "search_v1", 10⟩] none
                  (some "search_v1") 0 : ℚ)) :=
  ⟨⟨by decide,
    (C9_get_ctr [] [] none (some "search_v1") 0).1 (by decide)⟩,
   by decide, by decide,
   (C9_get_ctr [⟨"u1", "search_v1", 1⟩, ⟨"u2", "search_v1", 2⟩,
      ⟨"u3", "search_v1", 3⟩]
      [⟨"u1", "search_v1", 1⟩, ⟨"u2", "search_v1", 2⟩,
        ⟨"u3", "search_v1", 3⟩, ⟨"u4", "search_v1", 4⟩, ⟨"u5", "search_v1", 5⟩,
        ⟨"u6", "search_v1", 6⟩, ⟨"u7", "search_v1", 7⟩, ⟨"u8", "search_v1", 8⟩,
        ⟨"u9", "search_v1", 9⟩, ⟨"u10", "search_v1", 10⟩] none
      (some "search_v1") 0).2.2 (by decide) (by decide)⟩

/-- Claim C8 (corrected): `text_similarity(q, q) = 1.0` for every `q` with
at least one alphanumeric token (not for every non-empty `q`);
`text_similarity` is symmetric; and it returns `0.0` whenever either argument
is missing or empty. -/
theorem C8_text_similarity (q : String) (t1 t2 : Option String) :
    (tokenize q ≠ [] → text_similarity (some q) (some q) = 1)
    ∧ text_similarity t1 t2 = text_similarity t2 t1
    ∧ text_similarity none t1 = 0
    ∧ text_similarity t1 none = 0
    ∧ text_similarity (some "") t1 = 0
    ∧ text_similarity t1 (some "") = 0 := by
  refine ⟨?_, ?_, ?_, ?_, ?_, ?_⟩
  · intro h
    have hq : q ≠ "" := by
      intro he
      rw [he] at h
      exact h rfl
    simp only [text_similarity]
    rw [if_neg (by simp [hq])]
    exact cosine_sim_self _ h
  · cases t1 <;> cases t2 <;> try rfl
    · simp only [text_similarity]
      exact if_congr or_comm rfl (cosine_sim_comm _ _)
  · cases t1 <;> rfl
  · cases t1 <;> rfl
  · cases t1 with
    | none => rfl
    | some x =>
      simp [text_similarity]
  · cases t1 with
    | none => rfl
    | some x =>
      simp [text_similarity]

/-- Witness for C8: `"blue"` tokenises non-trivially and has
self-similarity 1. -/
theorem C8_witness :
    tokenize "blue" ≠ [] ∧ text_similarity (some "blue") (some "blue") = 1 :=
  ⟨by decide, (C8_text_similarity "blue" none none).1 (by decide)⟩

/-- Counterexample to C8 as stated: `"!!!"` is a non-empty string whose
self-similarity is `0.0`, not `1.0` (it has no alphanumeric token). -/
theorem C8_counterexample :
    ("!!!" : String) ≠ ""
    ∧ text_similarity (some "!!!") (some "!!!") = 0
    ∧ text_similarity (some "!!!") (some "!!!") ≠ 1 := by
  have hz : text_similarity (some "!!!") (some "!!!") = 0 := by
    simp only [text_similarity]
    rw [if_neg (by decide)]
    have h : tokenize "!!!" = [] := by decide
    rw [h]
    simp [cosine_sim]
  refine ⟨by decide, hz, ?_⟩
  rw [hz]
  norm_num



lemma get_assignment_log_event (s : AbState) (e : AbEvent) (uid : String) :
    get_assignment (log_event s e) uid = get_assignment s uid := rfl

lemma get_assignment_assign_self (s : AbState) (uid : String) (draw : Variant)
    (now : ℕ) (meta : List (String × String)) :
    get_assignment (assign_variant s uid draw now meta).2 uid
      = some (assign_variant s uid draw now meta).1 := by
  unfold assign_variant
  cases hg : get_assignment s uid with
  | some a => simpa using hg
  | none =>
    simp only
    have hf : s.assignments.find? (fun p => decide (p.1 = uid)) = none := by
      unfold get_assignment at hg
      exact Option.map_eq_none'.mp hg
    have hany : s.assignments.any (fun p => decide (p.1 = uid)) = false := by
      rw [List.any_eq_false]
      intro x hx
      simpa using List.find?_eq_none.mp hf x hx
    unfold storeAssignment get_assignment
    simp only [hany, Bool.false_eq_true, if_false]
    rw [List.find?_append, hf]
    simp

lemma get_assignment_assign_other (s : AbState) (uid2 : String) (draw : Variant)
    (now : ℕ) (meta : List (String × String)) (uid : String) (a : Assignment)
    (h : get_assignment s uid = some a) :
    get_assignment (assign_variant s uid2 draw now meta).2 uid = some a := by
  unfold assign_variant
  cases hg : get_assignment s uid2 with
  | some b => simpa using h
  | none =>
    simp only
    have hf2 : s.assignments.find? (fun p => decide (p.1 = uid2)) = none := by
      unfold get_assignment at hg
      exact Option.map_eq_none'.mp hg
    have hany : s.assignments.any (fun p => decide (p.1 = uid2)) = false := by
      rw [List.any_eq_false]
      intro x hx
      simpa using List.find?_eq_none.mp hf2 x hx
    obtain ⟨p, hp, hps⟩ : ∃ p, s.assignments.find? (fun q => decide (q.1 = uid)) = some p
        ∧ p.2 = a := by
      unfold get_assignment at h
      cases hfp : s.assignments.find? (fun q => decide (q.1 = uid)) with
      | none => rw [hfp] at h; simp at h
      | some p =>
        rw [hfp] at h
        exact ⟨p, rfl, by simpa using h⟩
    unfold storeAssignment get_assignment
    simp only [hany, Bool.false_eq_true, if_false]
    rw [List.find?_append, hp]
    simp [hps]

lemma get_assignment_stepOp (s : AbState) (op : AbOp) (uid : String) (a : Assignment)
    (h : get_assignment s uid = some a) :
    get_assignment (stepOp s op) uid = some a := by
  cases op with
  | assign uid2 draw now meta => exact get_assignment_assign_other s uid2 draw now meta uid a h
  | logSearch uid2 draw now query =>
    show get_assignment (log_search s uid2 draw now query) uid = some a
    unfold log_search
    rw [get_assignment_log_event]
    exact get_assignment_assign_other s uid2 draw now [] uid a h
  | logClick uid2 draw now query =>
    show get_assignment (log_click s uid2 draw now query) uid = some a
    unfold log_click
    rw [get_assignment_log_event]
    exact get_assignment_assign_other s uid2 draw now [] uid a h

lemma get_assignment_runOps (ops : List AbOp) (s : AbState) (uid : String) (a : Assignment)
    (h : get_assignment s uid = some a) :
    get_assignment (runOps s ops) uid = some a := by
  induction ops generalizing s with
  | nil => simpa [runOps] using h
  | cons op rest ih =>
    show get_assignment (runOps (stepOp s op) rest) uid = some a
    exact ih _ (get_assignment_stepOp s op uid a h)

/-- Claim C6 (confirmed): once `assign_variant` created an assignment it is
sticky: the state records it, calling `assign_variant` again for the same user
returns the identical assignment (same variant and `assigned_at`) and leaves
the state unchanged, and after any sequence of non-administrative operations
the lookup still returns the identical assignment. -/
theorem C6_sticky (s : AbState) (uid : String) (draw : Variant) (now : ℕ)
    (meta : List (String × String)) :
    get_assignment (assign_variant s uid draw now meta).2 uid
        = some (assign_variant s uid draw now meta).1
    ∧ (∀ draw2 now2 meta2,
        assign_variant (assign_variant s uid draw now meta).2 uid draw2 now2 meta2
          = ((assign_variant s uid draw now meta).1,
             (assign_variant s uid draw now meta).2))
    ∧ (∀ ops : List AbOp,
        get_assignment (runOps (assign_variant s uid draw now meta).2 ops) uid
          = some (assign_variant s uid draw now meta).1) := by
  refine ⟨get_assignment_assign_self s uid draw now meta, ?_, ?_⟩
  · intro draw2 now2 meta2
    set r := assign_variant s uid draw now meta with hr
    have h : get_assignment r.2 uid = some r.1 := get_assignment_assign_self s uid draw now meta
    unfold assign_variant
    rw [h]
  · intro ops
    exact get_assignment_runOps ops _ uid _ (get_assignment_assign_self s uid draw now meta)

lemma matchingEvents_sublist (events : List AbEvent) (uid : Option String)
    (variant : Option Variant) (ty : Option String) :
    (matchingEvents events uid variant ty).Sublist events := by
  unfold matchingEvents
  cases uid <;> cases variant <;> cases ty <;> simp only <;>
    first
      | exact List.Sublist.refl _
      | exact List.filter_sublist _
      | exact (List.filter_sublist _).trans (List.filter_sublist _)
      | exact ((List.filter_sublist _).trans (List.filter_sublist _)).trans
          (List.filter_sublist _)

lemma mem_matchingEvents (events : List AbEvent) (uid : Option String)
    (variant : Option Variant) (ty : Option String) (e : AbEvent)
    (he : e ∈ matchingEvents events uid variant ty) :
    (∀ u, uid = some u → e.user_id = u) ∧ (∀ v, variant = some v → e.variant = v)
      ∧ (∀ t, ty = some t → e.event_type = t) := by
  cases uid <;> cases variant <;> cases ty <;>
    simp only [matchingEvents, List.mem_filter, decide_eq_true_eq] at he <;>
    refine ⟨?_, ?_, ?_⟩ <;> intro z hz <;> cases hz <;> tauto

/-- Claim C3 (corrected): for a positive limit, `get_events` returns a
suffix of the matching events, of length `min limit matches`; the order is the
stored chronological (oldest-first) order — in particular, if the log is
timestamp-sorted so is the returned slice — and every returned event satisfies
the requested filters. -/
theorem C3_get_events (events : List AbEvent) (uid : Option String)
    (variant : Option Variant) (ty : Option String) (limit : ℕ) (h : 0 < limit) :
    (get_events events uid variant ty limit) <:+ matchingEvents events uid variant ty
    ∧ (get_events events uid variant ty limit).length
        = min limit (matchingEvents events uid variant ty).length
    ∧ (events.Pairwise (fun a b => a.timestamp ≤ b.timestamp) →
        (get_events events uid variant ty limit).Pairwise
          (fun a b => a.timestamp ≤ b.timestamp))
    ∧ (∀ u, uid = some u → ∀ e ∈ get_events events uid variant ty limit, e.user_id = u)
    ∧ (∀ v, variant = some v → ∀ e ∈ get_events events uid variant ty limit, e.variant = v)
    ∧ (∀ t, ty = some t → ∀ e ∈ get_events events uid variant ty limit, e.event_type = t) := by
  have hne : ¬ limit = 0 := Nat.pos_iff_ne_zero.mp h
  have huf : get_events events uid variant ty limit
      = (matchingEvents events uid variant ty).drop
          ((matchingEvents events uid variant ty).length - limit) := by
    unfold get_events
    rw [if_neg hne]
  have hsuf : (get_events events uid variant ty limit) <:+
      matchingEvents events uid variant ty := by
    rw [huf]
    exact List.drop_suffix _ _
  have hsub : (get_events events uid variant ty limit).Sublist
      (matchingEvents events uid variant ty) := hsuf.sublist
  refine ⟨hsuf, ?_, ?_, ?_, ?_, ?_⟩
  · rw [huf, List.length_drop]
    omega
  · intro hp
    exact ((hp.sublist (matchingEvents_sublist events uid variant ty)).sublist hsub)
  · intro u hu e he
    exact (mem_matchingEvents events uid variant ty e (hsub.mem he)).1 u hu
  · intro v hv e he
    exact (mem_matchingEvents events uid variant ty e (hsub.mem he)).2.1 v hv
  · intro tt ht e he
    exact (mem_matchingEvents events uid variant ty e (hsub.mem he)).2.2 tt ht



/-- Witness for C3 at a concrete event log with a user filter and
limit 2. -/
theorem C3_witness :
    (0 < 2)
    ∧ ((get_events [⟨"u1", .search_v1, 1, "search", none⟩,
          ⟨"u2", .search_v1, 2, "search", none⟩,
          ⟨"u1", .search_v1, 3, "click", none⟩] (some "u1") none none 2) <:+
        matchingEvents [⟨"u1", .search_v1, 1, "search", none⟩,
          ⟨"u2", .search_v1, 2, "search", none⟩,
          ⟨"u1", .search_v1, 3, "click", none⟩] (some "u1") none none
      ∧ (get_events [⟨"u1", .search_v1, 1, "search", none⟩,
          ⟨"u2", .search_v1, 2, "search", none⟩,
          ⟨"u1", .search_v1, 3, "click", none⟩] (some "u1") none none 2).length
          = min 2 (matchingEvents [⟨"u1", .search_v1, 1, "search", none⟩,
              ⟨"u2", .search_v1, 2, "search", none⟩,
              ⟨"u1", .search_v1, 3, "click", none⟩] (some "u1") none none).length
      ∧ (([⟨"u1", .search_v1, 1, "search", none⟩,
          ⟨"u2", .search_v1, 2, "search", none⟩,
          ⟨"u1", .search_v1, 3, "click", none⟩] : List AbEvent).Pairwise
            (fun a b => a.timestamp ≤ b.timestamp) →
          (get_events [⟨"u1", .search_v1, 1, "search", none⟩,
            ⟨"u2", .search_v1, 2, "search", none⟩,
            ⟨"u1", .search_v1, 3, "click", none⟩] (some "u1") none none 2).Pairwise
              (fun a b => a.timestamp ≤ b.timestamp))
      ∧ (∀ u, (some "u1" : Option String) = some u →
          ∀ e ∈ get_events [⟨"u1", .search_v1, 1, "search", none⟩,
            ⟨"u2", .search_v1, 2, "search", none⟩,
            ⟨"u1", .search_v1, 3, "click", none⟩] (some "u1") none none 2, e.user_id = u)
      ∧ (∀ v, (none : Option Variant) = some v →
          ∀ e ∈ get_events [⟨"u1", .search_v1, 1, "search", none⟩,
            ⟨"u2", .search_v1, 2, "search", none⟩,
            ⟨"u1", .search_v1, 3, "click", none⟩] (some "u1") none none 2, e.variant = v)
      ∧ (∀ t, (none : Option String) = some t →
          ∀ e ∈ get_events [⟨"u1", .search_v1, 1, "search", none⟩,
            ⟨"u2", .search_v1, 2, "search", none⟩,
            ⟨"u1", .search_v1, 3, "click", none⟩] (some "u1") none none 2,
            e.event_type = t)) :=
  ⟨by decide,
   C3_get_events [⟨"u1", .search_v1, 1, "search", none⟩,
     ⟨"u2", .search_v1, 2, "search", none⟩,
     ⟨"u1", .search_v1, 3, "click", none⟩] (some "u1") none none 2 (by decide)⟩

/-- Counterexample to C3 as stated: with two matching events of increasing
timestamps, the returned list is oldest-first (not most-recent-first), and
with `limit = 0` the Python slice `[-0:]` returns all events instead of at
most 0. -/
theorem C3_counterexample :
    get_events [⟨"u1", .search_v1, 1, "search", none⟩,
        ⟨"u1", .search_v1, 2, "search", none⟩] none none none 100
      = [⟨"u1", .search_v1, 1, "search", none⟩, ⟨"u1", .search_v1, 2, "search", none⟩]
    ∧ ¬ (get_events [⟨"u1", .search_v1, 1, "search", none⟩,
        ⟨"u1", .search_v1, 2, "search", none⟩] none none none 100).Pairwise
          (fun a b => b.timestamp ≤ a.timestamp)
    ∧ (get_events [⟨"u1", .search_v1, 1, "search", none⟩,
        ⟨"u1", .search_v1, 2, "search", none⟩] none none none 0).length = 2 := by
  refine ⟨by decide, ?_, by decide⟩
  decide



lemma descByScore_trans (a b c : ℝ × RankedResult) (hab : descByScore a b = true)
    (hbc : descByScore b c = true) : descByScore a c = true := by
  simp only [descByScore, decide_eq_true_eq] at hab hbc ⊢
  exact le_trans hbc hab

lemma descByScore_total (a b : ℝ × RankedResult) :
    (descByScore a b || descByScore b a) = true := by
  simp only [descByScore, Bool.or_eq_true, decide_eq_true_eq]
  exact le_total b.1 a.1

lemma mkRankedResult_base (qt qc qcat : Option String) (w : Option RankWeights)
    (asf adb : Bool) (c : Candidate) :
    (mkRankedResult qt qc qcat w asf adb c).base = c := rfl

lemma mem_scoredList (qt qc qcat : Option String) (w : Option RankWeights)
    (asf adb : Bool) (results : List Candidate) (p : ℝ × RankedResult)
    (hp : p ∈ scoredList qt qc qcat w asf adb results) :
    p.1 = candidateScore qt qc qcat w p.2.base
      ∧ p.2 = mkRankedResult qt qc qcat w asf adb p.2.base := by
  unfold scoredList at hp
  obtain ⟨c, hc, rfl⟩ := List.mem_map.mp hp
  exact ⟨rfl, rfl⟩

lemma rerank_sorted (results : List Candidate) (qt qc qcat : Option String)
    (w : Option RankWeights) (asf adb : Bool) :
    (rerank_results results qt qc qcat w asf adb).Pairwise
      (fun a b => candidateScore qt qc qcat w b.base ≤ candidateScore qt qc qcat w a.base) := by
  unfold rerank_results
  rw [List.pairwise_map]
  have hs := List.sorted_mergeSort descByScore_trans descByScore_total
    (scoredList qt qc qcat w asf adb results)
  refine hs.imp_of_mem ?_
  intro p q hp hq hr
  have hpm := (List.mergeSort_perm (scoredList qt qc qcat w asf adb results)
    descByScore).subset hp
  have hqm := (List.mergeSort_perm (scoredList qt qc qcat w asf adb results)
    descByScore).subset hq
  have hp1 := (mem_scoredList qt qc qcat w asf adb results p hpm).1
  have hq1 := (mem_scoredList qt qc qcat w asf adb results q hqm).1
  rw [← hp1, ← hq1]
  simpa [descByScore] using hr

open Classical in
lemma rerank_stable (results : List Candidate) (qt qc qcat : Option String)
    (w : Option RankWeights) (asf adb : Bool) (s : ℝ) :
    (rerank_results results qt qc qcat w asf adb).filter
        (fun r => decide (candidateScore qt qc qcat w r.base = s))
      = (results.filter (fun c => decide (candidateScore qt qc qcat w c = s))).map
          (mkRankedResult qt qc qcat w asf adb) := by
  set M := scoredList qt qc qcat w asf adb results with hM
  set pred2 : (ℝ × RankedResult) → Bool := fun q => decide (q.1 = s) with hpred2
  have hMpred : ∀ q ∈ M, (fun q : ℝ × RankedResult =>
      decide (candidateScore qt qc qcat w q.2.base = s)) q = pred2 q := by
    intro q hq
    have h1 := (mem_scoredList qt qc qcat w asf adb results q hq).1
    simp only [hpred2]
    rw [h1]
  unfold rerank_results
  rw [List.filter_map]
  have hmem_ms : ∀ q ∈ M.mergeSort descByScore,
      ((fun r : RankedResult => decide (candidateScore qt qc qcat w r.base = s)) ∘ Prod.snd) q
        = pred2 q := by
    intro q hq
    exact hMpred q ((List.mergeSort_perm M descByScore).subset hq)
  rw [List.filter_congr hmem_ms]
  have hcfix : (M.mergeSort descByScore).filter pred2 = M.filter pred2 := by
    have h1 : (M.filter pred2).Pairwise (fun a b => descByScore a b = true) := by
      refine List.pairwise_of_forall_mem_list ?_
      intro x hx y hy
      have hxs : x.1 = s := by simpa [hpred2] using List.of_mem_filter hx
      have hys : y.1 = s := by simpa [hpred2] using List.of_mem_filter hy
      simp [descByScore, hxs, hys]
    have h3 : (M.filter pred2).Sublist (M.mergeSort descByScore) :=
      List.sublist_mergeSort descByScore_trans descByScore_total h1 (List.filter_sublist M)
    have h4 : ((M.mergeSort descByScore).filter pred2).Perm (M.filter pred2) :=
      (List.mergeSort_perm M descByScore).filter pred2
    have h5 : (M.filter pred2).filter pred2 = M.filter pred2 := by
      rw [List.filter_eq_self]
      intro x hx
      exact List.of_mem_filter hx
    have h6 : (M.filter pred2).Sublist ((M.mergeSort descByScore).filter pred2) := by
      have h7 := List.Sublist.filter pred2 h3
      rwa [h5] at h7
    exact (h6.eq_of_length h4.length_eq.symm).symm
  rw [hcfix, hM]
  unfold scoredList
  rw [List.filter_map, List.map_map]
  rfl

lemma rerank_perm (results : List Candidate) (qt qc qcat : Option String)
    (w : Option RankWeights) (asf adb : Bool) :
    (rerank_results results qt qc qcat w asf adb).Perm
      (results.map (mkRankedResult qt qc qcat w asf adb)) := by
  unfold rerank_results
  have h := (List.mergeSort_perm (scoredList qt qc qcat w asf adb results)
    descByScore).map Prod.snd
  have h2 : (scoredList qt qc qcat w asf adb results).map Prod.snd
      = results.map (mkRankedResult qt qc qcat w asf adb) := by
    unfold scoredList
    rw [List.map_map]
    rfl
  rw [← h2]
  exact h

open Classical in
/-- Claim C5 (confirmed): `rerank_results` returns the candidates sorted in
descending order of their final score, and candidates with equal final score
appear in the same relative order as in the input (the subsequence at any
given score value is exactly the input subsequence at that score). -/
theorem C5_rerank (results : List Candidate) (qt qc qcat : Option String)
    (w : Option RankWeights) (asf adb : Bool) :
    (rerank_results results qt qc qcat w asf adb).Pairwise
      (fun a b => candidateScore qt qc qcat w b.base ≤ candidateScore qt qc qcat w a.base)
    ∧ ∀ s : ℝ,
      (rerank_results results qt qc qcat w asf adb).filter
          (fun r => decide (candidateScore qt qc qcat w r.base = s))
        = (results.filter (fun c => decide (candidateScore qt qc qcat w c = s))).map
            (mkRankedResult qt qc qcat w asf adb) :=
  ⟨rerank_sorted results qt qc qcat w asf adb,
   fun s => rerank_stable results qt qc qcat w asf adb s⟩

/-- Claim C10 (confirmed): `rerank_results` returns a permutation of its
input — each output dict is the corresponding input dict extended with only
the optional `final_score` and `debug_scores` keys, every original field
unchanged — so erasing the added keys yields a permutation of the input. -/
theorem C10_rerank_frame (results : List Candidate) (qt qc qcat : Option String)
    (w : Option RankWeights) (asf adb : Bool) :
    (rerank_results results qt qc qcat w asf adb).Perm
      (results.map (mkRankedResult qt qc qcat w asf adb))
    ∧ ((rerank_results results qt qc qcat w asf adb).map RankedResult.base).Perm results := by
  refine ⟨rerank_perm results qt qc qcat w asf adb, ?_⟩
  have h := (rerank_perm results qt qc qcat w asf adb).map RankedResult.base
  have h2 : (results.map (mkRankedResult qt qc qcat w asf adb)).map RankedResult.base
      = results := by
    rw [List.map_map]
    have hfn : (RankedResult.base ∘ mkRankedResult qt qc qcat w asf adb) = id :=
      funext (fun c => rfl)
    rw [hfn, List.map_id]
  have h3 : ((results.map (mkRankedResult qt qc qcat w asf adb)).map RankedResult.base).Perm
      results := by
    rw [h2]
  exact h.trans h3



/-- Claim C7 (corrected, default debug off): every `SearchResult` returned
by the re-ranking branch of `search_by_text` carries the re-ranked final score
in its `similarity` field; all remaining fields are copied from the candidate
dict and `debug_scores` is absent, so the original vector similarity survives
in no field of the result. -/
theorem C7_similarity_overwrite (q : String) (k : ℕ) (cat col : Option String)
    (initial : List SearchResult) :
    ∃ ranked : List Candidate,
      ranked.Perm (initial.map SearchResult.to_dict)
      ∧ ranked.Pairwise (fun a b =>
          candidateScore (some q) col cat none b ≤ candidateScore (some q) col cat none a)
      ∧ searchByTextRerank q k cat col false initial
          = (ranked.take k).map
              (fun c => resultFromCandidate c (candidateScore (some q) col cat none c)) := by
  by_cases hinit : initial.isEmpty = true
  · have hnil : initial = [] := List.isEmpty_iff.mp hinit
    subst hnil
    refine ⟨[], by simp, by simp, ?_⟩
    simp [searchByTextRerank]
  · set M := scoredList (some q) col cat none true false
      (initial.map SearchResult.to_dict) with hM
    refine ⟨(M.mergeSort descByScore).map (fun p => p.2.base), ?_, ?_, ?_⟩
    · have h := (List.mergeSort_perm M descByScore).map
        (fun p : ℝ × RankedResult => p.2.base)
      have h2 : M.map (fun p : ℝ × RankedResult => p.2.base)
          = initial.map SearchResult.to_dict := by
        rw [hM]
        unfold scoredList
        rw [List.map_map]
        have hfn : ((fun p : ℝ × RankedResult => p.2.base) ∘ fun c =>
            (candidateScore (some q) col cat none c,
             mkRankedResult (some q) col cat none true false c)) = id :=
          funext (fun c => rfl)
        rw [hfn, List.map_id]
      have h3 : (M.map (fun p : ℝ × RankedResult => p.2.base)).Perm
          (initial.map SearchResult.to_dict) := by
        rw [h2]
      exact h.trans h3
    · rw [List.pairwise_map]
      have hs := List.sorted_mergeSort descByScore_trans descByScore_total M
      refine hs.imp_of_mem ?_
      intro p p2 hp hp2 hr
      have hpm := (List.mergeSort_perm M descByScore).subset hp
      have hpm2 := (List.mergeSort_perm M descByScore).subset hp2
      rw [hM] at hpm hpm2
      have hp1 := (mem_scoredList (some q) col cat none true false
        (initial.map SearchResult.to_dict) p hpm).1
      have hq1 := (mem_scoredList (some q) col cat none true false
        (initial.map SearchResult.to_dict) p2 hpm2).1
      rw [← hp1, ← hq1]
      simpa [descByScore] using hr
    · unfold searchByTextRerank
      rw [if_neg hinit]
      unfold rerank_results
      rw [← hM]
      rw [← List.map_take, ← List.map_take, List.map_map, List.map_map]
      refine List.map_congr_left ?_
      intro p hp
      have hmem : p ∈ M := by
        have := List.take_subset k (M.mergeSort descByScore) hp
        exact (List.mergeSort_perm M descByScore).subset this
      rw [hM] at hmem
      have h2 := (mem_scoredList (some q) col cat none true false
        (initial.map SearchResult.to_dict) p hmem).2
      show (fun rd : RankedResult =>
        ({ product_id := rd.base.product_id
           title := rd.base.title
           description := rd.base.description
           color := rd.base.color
           category := rd.base.category
           image_path := rd.base.image_path
           similarity := rd.final_score.getD (rd.base.similarity.getD 0)
           distance := rd.base.distance.getD 0
           debug_scores := rd.debug_scores } : SearchResult)) p.2
        = resultFromCandidate p.2.base
            (candidateScore (some q) col cat none p.2.base)
      rw [h2]
      rfl



/-- Counterexample to C7 as stated: with debug output requested, the
returned result does preserve the original vector similarity `4/5` in its
`debug_scores.vector_score` field, while `similarity` is overwritten with the
final score `3/5`. -/
theorem C7_counterexample :
    searchByTextRerank "" 1 none (some "blue") true
        [⟨some "p1", some "Blue Dress", none, some "blue", some "dresses", none,
          4/5, 1/5, none⟩]
      = [⟨some "p1", some "Blue Dress", none, some "blue", some "dresses", none,
          3/5, 1/5, some ⟨4/5, 1, 0, 0, 3/5⟩⟩]
    ∧ ((4:ℝ)/5) ≠ 3/5 := by
  have hemb1 : exact_match_boost (some "blue") (some "blue") = 1 := by
    simp only [exact_match_boost]
    simp
  have hemb2 : exact_match_boost none (some "dresses") = 0 := rfl
  have hts : text_similarity (some "") (some "Blue Dress") = 0 := by
    simp only [text_similarity]
    simp
  have hscore : candidateScore (some "") (some "blue") none none
      ⟨some "p1", some "Blue Dress", none, some "blue", some "dresses", none,
        some (4/5), some (1/5)⟩ = 3/5 := by
    unfold candidateScore
    simp only [hemb1, hemb2, hts]
    unfold compute_final_score defaultRankWeights
    simp only [Option.getD_some, Option.getD_none]
    norm_num
  refine ⟨?_, by norm_num⟩
  unfold searchByTextRerank
  rw [if_neg (by simp)]
  unfold rerank_results scoredList
  simp only [List.map_cons, List.map_nil, SearchResult.to_dict]
  rw [show List.mergeSort [(candidateScore (some "") (some "blue") none none
      ⟨some "p1", some "Blue Dress", none, some "blue", some "dresses", none,
        some (4/5), some (1/5)⟩,
      mkRankedResult (some "") (some "blue") none none true true
        ⟨some "p1", some "Blue Dress", none, some "blue", some "dresses", none,
          some (4/5), some (1/5)⟩)] descByScore
    = [(candidateScore (some "") (some "blue") none none
      ⟨some "p1", some "Blue Dress", none, some "blue", some "dresses", none,
        some (4/5), some (1/5)⟩,
      mkRankedResult (some "") (some "blue") none none true true
        ⟨some "p1", some "Blue Dress", none, some "blue", some "dresses", none,
          some (4/5), some (1/5)⟩)] from by simp [List.mergeSort]]
  simp only [mkRankedResult, List.map_cons, List.map_nil, List.take_nil, hscore,
    if_true, List.take_succ_cons]
  norm_num
  exact ⟨hemb1, hemb2, hts⟩

end OmniSearch
